import Mathlib

/-!
Verification development for the QR-based guardian-dependent linking state
machine of the personal-security-system backend.

The embedding models the relational rows touched by the routes in
`backend/api/routes/pending_dependent.py`, `backend/api/routes/guardian.py`
and `backend/api/routes/dependent.py`, together with the helper methods of
`backend/models/qr_invitation.py`.  Timestamps are natural-number seconds;
the random uuid tokens minted by `QRInvitation.generate_token` are passed in
as parameters and required fresh where the unique column constraint and the
CSPRNG guarantee it.  Each route handler becomes a function from a database
state and request arguments to a pair of an `Except`-style HTTP result and
the successor database state; a handler that commits a mutation before
raising returns the mutated state together with the error, exactly as the
source does.
-/

namespace PSS

/-- Seconds per day; `QRInvitation.calculate_expiry(days=3)` adds three of
these to the current instant. -/
def daySeconds : Nat := 86400

/-- Row of the `pending_dependent` table (`models/pending_dependent.py`):
the placeholder dependent profile a guardian creates before any account is
linked. -/
structure PendingDependent where
  id : Nat
  guardian_id : Nat
  dependent_name : String
  relation : String
  age : Nat
  created_at : Nat
deriving DecidableEq, Repr

/-- Row of the `qr_invitations` table (`models/qr_invitation.py`). -/
structure QRInvitation where
  id : Nat
  qr_token : String
  guardian_id : Nat
  pending_dependent_id : Nat
  scanned_by_user_id : Option Nat
  status : String
  is_approved : Bool
  created_at : Nat
  scanned_at : Option Nat
  expires_at : Nat
  approved_at : Option Nat
deriving DecidableEq, Repr

/-- Row of the `guardian_dependents` table (`models/guardian_dependent.py`). -/
structure GuardianDependent where
  id : Nat
  guardian_id : Nat
  dependent_id : Nat
  relation : String
  is_primary : Bool
  guardian_type : String
  pending_dependent_id : Option Nat
  created_at : Nat
deriving DecidableEq, Repr

/-- The relational state read and written by the state machine: the user
ids that exist, the user-role rows (user id paired with role name, the
`Role` table indirection collapsed since `init_db` seeds the three role
names), and the three tables, with autoincrement counters. -/
structure DB where
  users : List Nat
  roles : List (Nat × String)
  pendings : List PendingDependent
  invs : List QRInvitation
  rels : List GuardianDependent
  nextPendingId : Nat
  nextInvId : Nat
  nextRelId : Nat
deriving DecidableEq, Repr

/-- `QRInvitation.is_expired`: the current instant is strictly past
`expires_at`. -/
def QRInvitation.is_expired (q : QRInvitation) (now : Nat) : Bool :=
  decide (q.expires_at < now)

/-- `QRInvitation.can_be_scanned`: status is exactly `pending` and the
token is not expired. -/
def QRInvitation.can_be_scanned (q : QRInvitation) (now : Nat) : Bool :=
  q.status == "pending" && !(q.is_expired now)

/-- An `HTTPException` surfaced by a route: status code plus detail. -/
structure HErr where
  code : Nat
  detail : String
deriving DecidableEq, Repr

/-- Successful payload of the generate-qr endpoints. -/
structure GenerateQRResult where
  message : String
  qr_token : String
  expires_at : Nat
  pending_dependent_id : Nat
deriving DecidableEq, Repr

/-- Successful payload of the scan-qr endpoints (display-name fields of the
source response are dropped; the ids that drive control flow are kept). -/
structure ScanQRResult where
  message : String
  guardian_id : Nat
  qr_invitation_id : Nat
deriving DecidableEq, Repr

/-- Successful payload of the approve endpoints. -/
structure ApproveQRResult where
  message : String
  relationship_id : Nat
  guardian_id : Nat
  dependent_id : Nat
  relation : String
deriving DecidableEq, Repr

/-- Membership of a user-role row. -/
def hasRole (db : DB) (uid : Nat) (r : String) : Bool :=
  db.roles.contains (uid, r)

/-- `verify_guardian_role` of both routers: the user holds the guardian
role. -/
def isGuardian (db : DB) (uid : Nat) : Bool :=
  hasRole db uid "guardian"

/-- `verify_dependent_role`: the user holds the child or the elderly
role. -/
def isDependentUser (db : DB) (uid : Nat) : Bool :=
  hasRole db uid "child" || hasRole db uid "elderly"

/-- `db.query(QRInvitation).filter(qr_token == token).first()`. -/
def getByToken (db : DB) (token : String) : Option QRInvitation :=
  db.invs.find? (fun q => q.qr_token == token)

/-- SQLAlchemy mutation of the invitation row with primary key `i`
(rows are keyed by the autoincrement id). -/
def mapInvById (db : DB) (i : Nat) (f : QRInvitation → QRInvitation) : DB :=
  { db with invs := db.invs.map (fun q => if q.id == i then f q else q) }

/-- `assign_role_to_user` of `dependent.py`: insert the user-role row when
absent.  The 500 branch for a `Role` row missing from the seeded table is
not modelled. -/
def addRoleIfMissing (db : DB) (uid : Nat) (r : String) : DB :=
  if db.roles.contains (uid, r) then db
  else { db with roles := db.roles ++ [(uid, r)] }

/-- `create_pending_dependent` (identical in both routers): guardian role
check, then insert the stub row. -/
def create_pending_dependent (db : DB) (cu : Nat) (name rel : String)
    (age now : Nat) : Except HErr PendingDependent × DB :=
  if !(isGuardian db cu) then
    (.error ⟨403, "User does not have guardian role"⟩, db)
  else
    let pd : PendingDependent :=
      { id := db.nextPendingId, guardian_id := cu, dependent_name := name,
        relation := rel, age := age, created_at := now }
    (.ok pd,
     { db with pendings := db.pendings ++ [pd],
               nextPendingId := db.nextPendingId + 1 })

/-- `generate_qr_code` of `pending_dependent.py`: refuses while an
invitation with status `pending` or `scanned` exists for the stub. -/
def pd_generate_qr (db : DB) (cu pdid : Nat) (token : String) (now : Nat) :
    Except HErr GenerateQRResult × DB :=
  if !(isGuardian db cu) then
    (.error ⟨403, "User does not have guardian role"⟩, db)
  else
    match db.pendings.find? (fun p => p.id == pdid && p.guardian_id == cu) with
    | none => (.error ⟨404, "Pending dependent not found or not owned by you"⟩, db)
    | some _ =>
      match db.invs.find? (fun q => q.pending_dependent_id == pdid &&
            (q.status == "pending" || q.status == "scanned")) with
      | some q0 =>
        (.error ⟨400, "Active QR code already exists with status: " ++ q0.status⟩, db)
      | none =>
        let exp := now + 3 * daySeconds
        let inv : QRInvitation :=
          { id := db.nextInvId, qr_token := token, guardian_id := cu,
            pending_dependent_id := pdid, scanned_by_user_id := none,
            status := "pending", is_approved := false,
            created_at := now, scanned_at := none, expires_at := exp,
            approved_at := none }
        (.ok { message := "QR code generated successfully", qr_token := token,
               expires_at := exp, pending_dependent_id := pdid },
         { db with invs := db.invs ++ [inv], nextInvId := db.nextInvId + 1 })

/-- `generate_qr_code` of `guardian.py`: returns the existing invitation
when one with status `pending` exists and is unexpired, otherwise mints a
new one. -/
def g_generate_qr (db : DB) (cu pdid : Nat) (token : String) (now : Nat) :
    Except HErr GenerateQRResult × DB :=
  if !(isGuardian db cu) then
    (.error ⟨403, "User must have guardian role to perform this action"⟩, db)
  else
    match db.pendings.find? (fun p => p.id == pdid && p.guardian_id == cu) with
    | none => (.error ⟨404, "Pending dependent not found"⟩, db)
    | some _ =>
      let exp := now + 3 * daySeconds
      let inv : QRInvitation :=
        { id := db.nextInvId, qr_token := token, guardian_id := cu,
          pending_dependent_id := pdid, scanned_by_user_id := none,
          status := "pending", is_approved := false,
          created_at := now, scanned_at := none, expires_at := exp,
          approved_at := none }
      let mint : Except HErr GenerateQRResult × DB :=
        (.ok { message := "QR code generated successfully", qr_token := token,
               expires_at := exp, pending_dependent_id := pdid },
         { db with invs := db.invs ++ [inv], nextInvId := db.nextInvId + 1 })
      match db.invs.find? (fun q => q.pending_dependent_id == pdid &&
            q.status == "pending") with
      | some q0 =>
        if !(q0.is_expired now) then
          (.ok { message := "QR code already exists", qr_token := q0.qr_token,
                 expires_at := q0.expires_at, pending_dependent_id := pdid }, db)
        else mint
      | none => mint

/-- `scan_qr_code` of `pending_dependent.py`: the two-step flow that
leaves the invitation in status `scanned` awaiting guardian approval.  The
expiry branch commits the status change before raising; a missing
pending-dependent or guardian row after the committed update surfaces as an
unhandled attribute error, modelled as a 500 with the mutation kept. -/
def pd_scan_qr (db : DB) (cu : Nat) (token : String) (now : Nat) :
    Except HErr ScanQRResult × DB :=
  if !(isDependentUser db cu) then
    (.error ⟨403, "User does not have dependent role (child or elderly)"⟩, db)
  else
    match getByToken db token with
    | none => (.error ⟨404, "Invalid QR code"⟩, db)
    | some q =>
      if q.is_expired now then
        (.error ⟨400, "QR code has expired"⟩,
         mapInvById db q.id (fun x => { x with status := "expired" }))
      else if !(q.can_be_scanned now) then
        (.error ⟨400, "QR code cannot be scanned. Current status: " ++ q.status⟩, db)
      else if q.guardian_id == cu then
        (.error ⟨400, "Cannot scan your own QR code"⟩, db)
      else
        let db1 := mapInvById db q.id (fun x =>
          { x with scanned_by_user_id := some cu, status := "scanned",
                   scanned_at := some now })
        match db1.pendings.find? (fun p => p.id == q.pending_dependent_id) with
        | none => (.error ⟨500, "Internal Server Error"⟩, db1)
        | some _ =>
          if db1.users.contains q.guardian_id then
            (.ok { message := "QR code scanned successfully. Waiting for guardian approval.",
                   guardian_id := q.guardian_id, qr_invitation_id := q.id }, db1)
          else (.error ⟨500, "Internal Server Error"⟩, db1)

/-- `scan_qr_code` of `dependent.py`: the one-step flow that marks the
invitation approved on scan and creates the relationship itself, with
`is_primary` unconditionally true, then ensures the scanning user has the
role matching the stub relation. -/
def d_scan_qr (db : DB) (cu : Nat) (token : String) (now : Nat) :
    Except HErr ScanQRResult × DB :=
  if !(isDependentUser db cu) then
    (.error ⟨403, "User must have child or elderly role to perform this action"⟩, db)
  else
    match getByToken db token with
    | none => (.error ⟨404, "Invalid QR code"⟩, db)
    | some q =>
      if q.is_expired now then
        (.error ⟨400, "QR code has expired. Please ask your guardian for a new one."⟩,
         mapInvById db q.id (fun x => { x with status := "expired" }))
      else if !(q.status == "pending" || q.status == "scanned") then
        (.error ⟨400, "QR code has already been " ++ q.status⟩, db)
      else if q.guardian_id == cu then
        (.error ⟨400, "You cannot scan your own QR code"⟩, db)
      else
        match db.pendings.find? (fun p => p.id == q.pending_dependent_id) with
        | none => (.error ⟨404, "Pending dependent information not found"⟩, db)
        | some pd =>
          if !(db.users.contains q.guardian_id) then
            (.error ⟨404, "Guardian not found"⟩, db)
          else
            let db1 := mapInvById db q.id (fun x =>
              { x with scanned_by_user_id := some cu, status := "approved",
                       is_approved := true, scanned_at := some now,
                       approved_at := some now })
            let db2 :=
              match db1.rels.find? (fun r =>
                  r.guardian_id == q.guardian_id && r.dependent_id == cu) with
              | some _ => db1
              | none =>
                { db1 with
                  rels := db1.rels ++
                    [{ id := db1.nextRelId, guardian_id := q.guardian_id,
                       dependent_id := cu, relation := pd.relation,
                       is_primary := true, guardian_type := "primary",
                       pending_dependent_id := some pd.id, created_at := now }],
                  nextRelId := db1.nextRelId + 1 }
            let db3 :=
              if pd.relation == "child" then addRoleIfMissing db2 cu "child"
              else if pd.relation == "elderly" then addRoleIfMissing db2 cu "elderly"
              else db2
            (.ok { message := "Successfully linked", guardian_id := q.guardian_id,
                   qr_invitation_id := q.id }, db3)

/-- `approve_qr_scan` of `pending_dependent.py`: refuses an already
approved invitation, refuses when a relationship for the pair exists, and
computes `is_primary` as absence of any relationship for the scanner. -/
def pd_approve_qr (db : DB) (cu invId now : Nat) :
    Except HErr ApproveQRResult × DB :=
  if !(isGuardian db cu) then
    (.error ⟨403, "User does not have guardian role"⟩, db)
  else
    match db.invs.find? (fun q => q.id == invId && q.guardian_id == cu) with
    | none => (.error ⟨404, "QR invitation not found or not owned by you"⟩, db)
    | some q =>
      if q.is_approved then
        (.error ⟨400, "QR invitation already approved"⟩, db)
      else if !(q.status == "scanned") then
        (.error ⟨400, "QR code has not been scanned yet"⟩, db)
      else
        match q.scanned_by_user_id with
        | none => (.error ⟨400, "QR code has not been scanned yet"⟩, db)
        | some sb =>
          match db.pendings.find? (fun p => p.id == q.pending_dependent_id) with
          | none => (.error ⟨404, "Pending dependent not found"⟩, db)
          | some pd =>
            match db.rels.find? (fun r =>
                r.guardian_id == cu && r.dependent_id == sb) with
            | some _ => (.error ⟨400, "Relationship already exists"⟩, db)
            | none =>
              let isPrim := (db.rels.find? (fun r => r.dependent_id == sb)).isNone
              let rel : GuardianDependent :=
                { id := db.nextRelId, guardian_id := cu, dependent_id := sb,
                  relation := pd.relation, is_primary := isPrim,
                  guardian_type := "primary",
                  pending_dependent_id := some pd.id, created_at := now }
              let db1 :=
                { db with rels := db.rels ++ [rel], nextRelId := db.nextRelId + 1 }
              let db2 := mapInvById db1 q.id (fun x =>
                { x with is_approved := true, status := "approved",
                         approved_at := some now })
              (.ok { message := "Relationship approved",
                     relationship_id := rel.id, guardian_id := cu,
                     dependent_id := sb, relation := pd.relation }, db2)

/-- `approve_qr_invitation` of `guardian.py`: looks the invitation up with
a `status == scanned` filter, treats an existing relationship for the pair
as idempotent success, and otherwise creates the relationship with
`is_primary` unconditionally true. -/
def g_approve_qr (db : DB) (cu invId now : Nat) :
    Except HErr ApproveQRResult × DB :=
  if !(isGuardian db cu) then
    (.error ⟨403, "User must have guardian role to perform this action"⟩, db)
  else
    match db.invs.find? (fun q => q.id == invId && q.guardian_id == cu &&
        q.status == "scanned") with
    | none => (.error ⟨404, "QR invitation not found or already processed"⟩, db)
    | some q =>
      match q.scanned_by_user_id with
      | none => (.error ⟨400, "QR has not been scanned yet"⟩, db)
      | some sb =>
        match db.pendings.find? (fun p => p.id == q.pending_dependent_id) with
        | none => (.error ⟨404, "Pending dependent not found"⟩, db)
        | some pd =>
          match db.rels.find? (fun r =>
              r.guardian_id == cu && r.dependent_id == sb) with
          | some r =>
            let db1 := mapInvById db q.id (fun x =>
              { x with status := "approved", is_approved := true,
                       approved_at := some now })
            (.ok { message := "Relationship already exists",
                   relationship_id := r.id, guardian_id := r.guardian_id,
                   dependent_id := r.dependent_id, relation := r.relation }, db1)
          | none =>
            let rel : GuardianDependent :=
              { id := db.nextRelId, guardian_id := cu, dependent_id := sb,
                relation := pd.relation, is_primary := true,
                guardian_type := "primary",
                pending_dependent_id := some pd.id, created_at := now }
            let db1 :=
              { db with rels := db.rels ++ [rel], nextRelId := db.nextRelId + 1 }
            let db2 := mapInvById db1 q.id (fun x =>
              { x with status := "approved", is_approved := true,
                       approved_at := some now })
            (.ok { message := "Relationship created successfully",
                   relationship_id := rel.id, guardian_id := cu,
                   dependent_id := sb, relation := pd.relation }, db2)

/-- `reject_qr_scan` of `pending_dependent.py`: only a `scanned`
invitation may be rejected; rejection also clears `is_approved`. -/
def pd_reject_qr (db : DB) (cu invId : Nat) : Except HErr Unit × DB :=
  if !(isGuardian db cu) then
    (.error ⟨403, "User does not have guardian role"⟩, db)
  else
    match db.invs.find? (fun q => q.id == invId && q.guardian_id == cu) with
    | none => (.error ⟨404, "QR invitation not found or not owned by you"⟩, db)
    | some q =>
      if !(q.status == "scanned") then
        (.error ⟨400, "Can only reject scanned QR codes"⟩, db)
      else
        (.ok (), mapInvById db q.id (fun x =>
          { x with status := "rejected", is_approved := false }))

/-- `reject_qr_invitation` of `guardian.py`: no status precondition at
all; any owned invitation is set to `rejected`. -/
def g_reject_qr (db : DB) (cu invId : Nat) : Except HErr Unit × DB :=
  if !(isGuardian db cu) then
    (.error ⟨403, "User must have guardian role to perform this action"⟩, db)
  else
    match db.invs.find? (fun q => q.id == invId && q.guardian_id == cu) with
    | none => (.error ⟨404, "QR invitation not found"⟩, db)
    | some q =>
      (.ok (), mapInvById db q.id (fun x => { x with status := "rejected" }))

/-- `delete_pending_dependent` of `pending_dependent.py`: refuses when an
approved invitation exists, then deletes the invitations and the stub; the
SET NULL foreign key clears relationship back references. -/
def pd_delete_pending (db : DB) (cu pdid : Nat) : Except HErr Unit × DB :=
  if !(isGuardian db cu) then
    (.error ⟨403, "User does not have guardian role"⟩, db)
  else
    match db.pendings.find? (fun p => p.id == pdid && p.guardian_id == cu) with
    | none => (.error ⟨404, "Pending dependent not found or not owned by you"⟩, db)
    | some _ =>
      match db.invs.find? (fun q => q.pending_dependent_id == pdid && q.is_approved) with
      | some _ =>
        (.error ⟨400, "Cannot delete pending dependent with approved relationships"⟩, db)
      | none =>
        (.ok (),
         { db with
           invs := db.invs.filter (fun q => !(q.pending_dependent_id == pdid)),
           pendings := db.pendings.filter (fun p => !(p.id == pdid)),
           rels := db.rels.map (fun r =>
             if r.pending_dependent_id == some pdid then
               { r with pending_dependent_id := none } else r) })

/-- `delete_pending_dependent` of `guardian.py`: deletes unconditionally
once ownership is verified, cascade removing the invitations. -/
def g_delete_pending (db : DB) (cu pdid : Nat) : Except HErr Unit × DB :=
  if !(isGuardian db cu) then
    (.error ⟨403, "User must have guardian role to perform this action"⟩, db)
  else
    match db.pendings.find? (fun p => p.id == pdid && p.guardian_id == cu) with
    | none => (.error ⟨404, "Pending dependent not found"⟩, db)
    | some _ =>
      (.ok (),
       { db with
         invs := db.invs.filter (fun q => !(q.pending_dependent_id == pdid)),
         pendings := db.pendings.filter (fun p => !(p.id == pdid)),
         rels := db.rels.map (fun r =>
           if r.pending_dependent_id == some pdid then
             { r with pending_dependent_id := none } else r) })

/-- One request against the state machine.  The token arguments of the
generate operations are fresh, reflecting the uuid4 source together with
the unique column constraint on `qr_token`. -/
inductive Step : DB → DB → Prop where
  | createPD (db : DB) (cu : Nat) (name rel : String) (age now : Nat) :
      Step db (create_pending_dependent db cu name rel age now).2
  | pdGen (db : DB) (cu pdid : Nat) (token : String) (now : Nat)
      (hfresh : ∀ q ∈ db.invs, q.qr_token ≠ token) :
      Step db (pd_generate_qr db cu pdid token now).2
  | gGen (db : DB) (cu pdid : Nat) (token : String) (now : Nat)
      (hfresh : ∀ q ∈ db.invs, q.qr_token ≠ token) :
      Step db (g_generate_qr db cu pdid token now).2
  | pdScan (db : DB) (cu : Nat) (token : String) (now : Nat) :
      Step db (pd_scan_qr db cu token now).2
  | dScan (db : DB) (cu : Nat) (token : String) (now : Nat) :
      Step db (d_scan_qr db cu token now).2
  | pdApprove (db : DB) (cu invId now : Nat) :
      Step db (pd_approve_qr db cu invId now).2
  | gApprove (db : DB) (cu invId now : Nat) :
      Step db (g_approve_qr db cu invId now).2
  | pdReject (db : DB) (cu invId : Nat) :
      Step db (pd_reject_qr db cu invId).2
  | gReject (db : DB) (cu invId : Nat) :
      Step db (g_reject_qr db cu invId).2
  | pdDelete (db : DB) (cu pdid : Nat) :
      Step db (pd_delete_pending db cu pdid).2
  | gDelete (db : DB) (cu pdid : Nat) :
      Step db (g_delete_pending db cu pdid).2

/-- A state before any linking activity: the three workflow tables are
empty, while the user directory and role rows are arbitrary. -/
def Init (db : DB) : Prop :=
  db.pendings = [] ∧ db.invs = [] ∧ db.rels = []

/-- Reachability of a database state through the modelled requests. -/
def Reachable (db : DB) : Prop :=
  ∃ db0, Init db0 ∧ Relation.ReflTransGen Step db0 db

/-- Status of the invitation row keyed `i`, the observable the terminality
and idempotence claims speak about. -/
def invStatus (db : DB) (i : Nat) : Option String :=
  (db.invs.find? (fun q => q.id == i)).map (fun q => q.status)

/-- Number of relationship rows marked primary for a dependent. -/
def primaryCount (db : DB) (depId : Nat) : Nat :=
  (db.rels.filter (fun r => r.dependent_id == depId && r.is_primary)).length

/-- Number of invitations in an active (`pending` or `scanned`) status for
a pending-dependent stub. -/
def activeInvCount (db : DB) (pdid : Nat) : Nat :=
  (db.invs.filter (fun q => q.pending_dependent_id == pdid &&
    (q.status == "pending" || q.status == "scanned"))).length

/-- Which of the two scan endpoints a retry hits. -/
inductive ScanRoute where
  | pdR
  | dR
deriving DecidableEq, Repr

/-- One scan attempt: endpoint, scanning user, instant. -/
structure ScanAttempt where
  route : ScanRoute
  user : Nat
  time : Nat
deriving DecidableEq, Repr

/-- Dispatch a scan attempt to its endpoint. -/
def runScan (db : DB) (token : String) (a : ScanAttempt) :
    Except HErr ScanQRResult × DB :=
  match a.route with
  | .pdR => pd_scan_qr db a.user token a.time
  | .dR => d_scan_qr db a.user token a.time

/-- State after a sequence of scan attempts on one token. -/
def runScans (db : DB) (token : String) : List ScanAttempt → DB
  | [] => db
  | a :: rest => runScans (runScan db token a).2 token rest

/-- The expiry error each scan endpoint raises. -/
def expiredErr : ScanRoute → HErr
  | .pdR => ⟨400, "QR code has expired"⟩
  | .dR => ⟨400, "QR code has expired. Please ask your guardian for a new one."⟩

/-- The failing state transition a scan commits before raising `Expired`:
only the scanned invitation's status is set to `expired`. -/
def invsOnlyExpired (db db' : DB) (token : String) : Prop :=
  ∃ q, getByToken db token = some q ∧
    db' = mapInvById db q.id (fun x => { x with status := "expired" })

/-- The redeemed-by invariant of the spec, per invitation row:
`scanned_by_user_id` is never set while status is `pending`, it is set
exactly when `scanned_at` is (both are written only by a successful scan,
together, and never cleared), and the status stays in the five-value
domain. -/
def C8Inv (q : QRInvitation) : Prop :=
  (q.status = "pending" → q.scanned_by_user_id = none) ∧
  (q.scanned_by_user_id.isSome ↔ q.scanned_at.isSome) ∧
  (q.status = "pending" ∨ q.status = "scanned" ∨ q.status = "approved" ∨
   q.status = "rejected" ∨ q.status = "expired")

/-! Concrete states used by counterexamples and witnesses. -/

/-- Three accounts: guardians 1 and 2, child 3. -/
def exRoles : List (Nat × String) :=
  [(1, "guardian"), (2, "guardian"), (3, "child")]

/-- A pending-dependent stub owned by guardian 1. -/
def pdStub : PendingDependent :=
  { id := 1, guardian_id := 1, dependent_name := "Kid", relation := "child",
    age := 10, created_at := 0 }

/-- An invitation already scanned by user 3, unexpired, unapproved. -/
def invScanned : QRInvitation :=
  { id := 1, qr_token := "tok1", guardian_id := 1, pending_dependent_id := 1,
    scanned_by_user_id := some 3, status := "scanned", is_approved := false,
    created_at := 0, scanned_at := some 10, expires_at := 259200,
    approved_at := none }

/-- State with one scanned invitation awaiting approval. -/
def dbScanned : DB :=
  { users := [1, 2, 3], roles := exRoles, pendings := [pdStub],
    invs := [invScanned], rels := [], nextPendingId := 2, nextInvId := 2,
    nextRelId := 1 }

/-- An invitation in the terminal status `approved`. -/
def invApproved : QRInvitation :=
  { id := 1, qr_token := "tok1", guardian_id := 1, pending_dependent_id := 1,
    scanned_by_user_id := some 3, status := "approved", is_approved := true,
    created_at := 0, scanned_at := some 10, expires_at := 259200,
    approved_at := some 20 }

/-- State with one approved invitation and its relationship row. -/
def dbApproved : DB :=
  { users := [1, 2, 3], roles := exRoles, pendings := [pdStub],
    invs := [invApproved],
    rels := [{ id := 1, guardian_id := 1, dependent_id := 3,
               relation := "child", is_primary := true,
               guardian_type := "primary", pending_dependent_id := some 1,
               created_at := 20 }],
    nextPendingId := 2, nextInvId := 2, nextRelId := 2 }

/-- A freshly generated invitation, never scanned. -/
def invPending : QRInvitation :=
  { id := 1, qr_token := "tok1", guardian_id := 1, pending_dependent_id := 1,
    scanned_by_user_id := none, status := "pending", is_approved := false,
    created_at := 0, scanned_at := none, expires_at := 259200,
    approved_at := none }

/-- State with one pending, never-scanned invitation. -/
def dbPending : DB :=
  { users := [1, 2, 3], roles := exRoles, pendings := [pdStub],
    invs := [invPending], rels := [], nextPendingId := 2, nextInvId := 2,
    nextRelId := 1 }

/-- A never-scanned invitation whose expiry instant (100) has passed. -/
def invStale : QRInvitation :=
  { id := 1, qr_token := "tokE", guardian_id := 1, pending_dependent_id := 1,
    scanned_by_user_id := none, status := "pending", is_approved := false,
    created_at := 0, scanned_at := none, expires_at := 100,
    approved_at := none }

/-- State with one time-expired pending invitation. -/
def dbStale : DB :=
  { users := [1, 2, 3], roles := exRoles, pendings := [pdStub],
    invs := [invStale], rels := [], nextPendingId := 2, nextInvId := 2,
    nextRelId := 1 }

/-- Empty-workflow start state for the two-primary-guardians trace. -/
def c2db0 : DB :=
  { users := [1, 2, 3], roles := exRoles, pendings := [], invs := [],
    rels := [], nextPendingId := 1, nextInvId := 1, nextRelId := 1 }

/-- Guardian 1 creates a stub. -/
def c2db1 : DB := (create_pending_dependent c2db0 1 "A" "child" 9 0).2

/-- Guardian 1 generates a QR (token t1). -/
def c2db2 : DB := (pd_generate_qr c2db1 1 1 "t1" 0).2

/-- Child 3 scans t1; invitation 1 is now `scanned`. -/
def c2db3 : DB := (pd_scan_qr c2db2 3 "t1" 5).2

/-- Guardian 2 creates a stub of their own. -/
def c2db4 : DB := (create_pending_dependent c2db3 2 "A" "child" 9 0).2

/-- Guardian 2 generates a QR (token t2). -/
def c2db5 : DB := (pd_generate_qr c2db4 2 2 "t2" 0).2

/-- Child 3 scans t2; invitation 2 is now `scanned`. -/
def c2db6 : DB := (pd_scan_qr c2db5 3 "t2" 5).2

/-- Guardian 1 approves via the guardian router: relationship (1,3) primary. -/
def c2db7 : DB := (g_approve_qr c2db6 1 1 10).2

/-- Guardian 2 approves via the guardian router: a second primary for 3. -/
def c2db8 : DB := (g_approve_qr c2db7 2 2 11).2

/-- Result row of the first approval of the scanned invitation. -/
def c1res : ApproveQRResult :=
  { message := "Relationship created successfully", relationship_id := 1,
    guardian_id := 1, dependent_id := 3, relation := "child" }

/-- State after a first successful guardian-router approval. -/
def c1db1 : DB := (g_approve_qr dbScanned 1 1 20).2

/-! Helper lemmas about `List.find?` under the row-update maps. -/

/-- Finding after a map whose effect on the predicate is captured by a
second predicate on the original rows. -/
theorem find?_map_congr {α : Type} (l : List α) (g : α → α) (p c : α → Bool)
    (h : ∀ x, p (g x) = c x) : (l.map g).find? p = (l.find? c).map g := by
  induction l with
  | nil => rfl
  | cons a t ih =>
    by_cases hc : c a = true
    · rw [List.map_cons, List.find?_cons_of_pos _ (by rw [h a]; exact hc),
        List.find?_cons_of_pos _ hc, Option.map_some']
    · have hcf : c a = false := by simpa using hc
      rw [List.map_cons, List.find?_cons_of_neg _ (by rw [h a]; simp [hcf]),
        List.find?_cons_of_neg _ (by simp [hcf]), ih]

/-- With pairwise-distinct keys, `find?` on the key of a member returns
that member. -/
theorem find?_key_of_mem {α β : Type} [DecidableEq β] (key : α → β)
    (l : List α) (a : α) (hn : (l.map key).Nodup) (ha : a ∈ l) :
    l.find? (fun x => key x == key a) = some a := by
  induction l with
  | nil => cases ha
  | cons b t ih =>
    rw [List.map_cons, List.nodup_cons] at hn
    rcases List.mem_cons.mp ha with rfl | hat
    · exact List.find?_cons_of_pos _ (by simp)
    · have hne : ¬ key b = key a := fun he =>
        hn.1 (he ▸ List.mem_map_of_mem key hat)
      rw [List.find?_cons_of_neg _ (by simpa using hne)]
      exact ih hn.2 hat

/-- Distinct keys separate distinct members. -/
theorem key_ne_of_mem_ne {α β : Type} (key : α → β) (l : List α) (a b : α)
    (hn : (l.map key).Nodup) (ha : a ∈ l) (hb : b ∈ l) (hne : a ≠ b) :
    key a ≠ key b := by
  intro he
  induction l with
  | nil => cases ha
  | cons c t ih =>
    rw [List.map_cons, List.nodup_cons] at hn
    rcases List.mem_cons.mp ha with rfl | hat <;>
      rcases List.mem_cons.mp hb with h1 | hbt
    · exact absurd h1.symm hne
    · exact hn.1 (he ▸ List.mem_map_of_mem key hbt)
    · exact hn.1 (h1 ▸ he ▸ List.mem_map_of_mem key hat)
    · exact ih hn.2 hat hbt

/-- C1 counterexample: at the concrete state `dbScanned` the first
guardian-router approval succeeds and creates relationship 1, but a second
approval call by the same guardian does not return that relationship id —
it fails with 404 — refuting the claimed idempotent success of a retried
approval. -/
theorem C1_counterexample :
    g_approve_qr dbScanned 1 1 20 = (.ok c1res, c1db1) ∧
    (g_approve_qr c1db1 1 1 30).1 =
      .error ⟨404, "QR invitation not found or already processed"⟩ :=
  ⟨rfl, rfl⟩

/-- C2 (code bug): the state `c2db8`, reached from an empty workflow by
two guardians whose invitations child 3 scanned and which each guardian
approved through the guardian router, holds two relationship rows marked
primary for dependent 3 — `approve_qr_invitation` sets `is_primary`
unconditionally, violating the at-most-one-primary invariant. -/
theorem C2_two_primary_guardians :
    Reachable c2db8 ∧ primaryCount c2db8 3 = 2 := by
  constructor
  · refine ⟨c2db0, ⟨rfl, rfl, rfl⟩, ?_⟩
    have s1 : Step c2db0 c2db1 := Step.createPD c2db0 1 "A" "child" 9 0
    have s2 : Step c2db1 c2db2 := Step.pdGen c2db1 1 1 "t1" 0 (by decide)
    have s3 : Step c2db2 c2db3 := Step.pdScan c2db2 3 "t1" 5
    have s4 : Step c2db3 c2db4 := Step.createPD c2db3 2 "A" "child" 9 0
    have s5 : Step c2db4 c2db5 := Step.pdGen c2db4 2 2 "t2" 0 (by decide)
    have s6 : Step c2db5 c2db6 := Step.pdScan c2db5 3 "t2" 5
    have s7 : Step c2db6 c2db7 := Step.gApprove c2db6 1 1 10
    have s8 : Step c2db7 c2db8 := Step.gApprove c2db7 2 2 11
    exact .tail (.tail (.tail (.tail (.tail (.tail (.tail (.single s1)
      s2) s3) s4) s5) s6) s7) s8
  · rfl

/-- C3 counterexample: `approved` is not terminal — the guardian-router
reject succeeds on the approved invitation of `dbApproved` and moves its
status to `rejected`. -/
theorem C3_counterexample :
    invApproved.status = "approved" ∧
    (g_reject_qr dbApproved 1 1).1 = .ok () ∧
    invStatus (g_reject_qr dbApproved 1 1).2 1 = some "rejected" :=
  ⟨rfl, rfl, rfl⟩

/-- C5 counterexample: re-scanning the unexpired, unapproved, scanned
invitation of `dbScanned` by the same scanning user 3 through the
pending-dependent router fails with AlreadyProcessed instead of
succeeding: `can_be_scanned` accepts only status `pending`. -/
theorem C5_counterexample :
    invScanned.scanned_by_user_id = some 3 ∧
    pd_scan_qr dbScanned 3 "tok1" 20 =
      (.error ⟨400, "QR code cannot be scanned. Current status: scanned"⟩,
       dbScanned) :=
  ⟨rfl, rfl⟩

/-- C6 counterexample: rejecting the never-scanned invitation of
`dbPending` through the guardian router succeeds and sets status
`rejected`, instead of failing with InvalidState. -/
theorem C6_counterexample :
    invPending.scanned_by_user_id = none ∧ invPending.status = "pending" ∧
    (g_reject_qr dbPending 1 1).1 = .ok () ∧
    invStatus (g_reject_qr dbPending 1 1).2 1 = some "rejected" :=
  ⟨rfl, rfl, rfl, rfl⟩

/-- C7 counterexample: a failing operation that does mutate state —
scanning the time-expired invitation of `dbStale` at instant 200 fails
with the expiry error yet commits the status change to `expired`, so a
partial mutation is visible to the caller on failure. -/
theorem C7_counterexample :
    (pd_scan_qr dbStale 3 "tokE" 200).1 =
      .error ⟨400, "QR code has expired"⟩ ∧
    invStatus dbStale 1 = some "pending" ∧
    invStatus (pd_scan_qr dbStale 3 "tokE" 200).2 1 = some "expired" :=
  ⟨rfl, rfl, rfl⟩

/-- C10 counterexample: with the scanned (hence active) invitation of
`dbScanned`, the guardian-router generate mints a second invitation — its
dedup query looks only for status `pending` — so the stub ends with two
invitations in an active status. -/
theorem C10_counterexample :
    activeInvCount dbScanned 1 = 1 ∧
    (g_generate_qr dbScanned 1 1 "tok2" 20).1 =
      .ok { message := "QR code generated successfully", qr_token := "tok2",
            expires_at := 259220, pending_dependent_id := 1 } ∧
    activeInvCount (g_generate_qr dbScanned 1 1 "tok2" 20).2 1 = 2 :=
  ⟨rfl, rfl, rfl⟩

/-- What a successful guardian-router approval did: the guardian role
held, the scanned invitation was found, and only that invitation row was
rewritten to `approved` (the role rows are untouched). -/
theorem g_approve_ok_shape (db : DB) (cu invId now : Nat)
    (r : ApproveQRResult) (db1 : DB)
    (h : g_approve_qr db cu invId now = (.ok r, db1)) :
    isGuardian db cu = true ∧
    ∃ q, db.invs.find? (fun x => x.id == invId && x.guardian_id == cu &&
        x.status == "scanned") = some q ∧
      db1.invs = db.invs.map (fun x => if x.id == q.id then
        { x with status := "approved", is_approved := true,
                 approved_at := some now } else x) ∧
      db1.roles = db.roles := by
  unfold g_approve_qr at h
  split at h
  · exact absurd h (by simp)
  · rename_i hrole
    refine ⟨by simpa using hrole, ?_⟩
    split at h
    · exact absurd h (by simp)
    · rename_i q hq
      refine ⟨q, hq, ?_⟩
      split at h
      · exact absurd h (by simp)
      · split at h
        · exact absurd h (by simp)
        · split at h
          · rw [Prod.mk.injEq] at h
            rw [← h.2]
            exact ⟨rfl, rfl⟩
          · rw [Prod.mk.injEq] at h
            rw [← h.2]
            exact ⟨rfl, rfl⟩

/-- What a successful pending-router approval did: the guardian role held,
the owned invitation was found, and only that invitation row was rewritten
to `approved` (the role rows are untouched). -/
theorem pd_approve_ok_shape (db : DB) (cu invId now : Nat)
    (r : ApproveQRResult) (db1 : DB)
    (h : pd_approve_qr db cu invId now = (.ok r, db1)) :
    isGuardian db cu = true ∧
    ∃ q, db.invs.find? (fun x => x.id == invId && x.guardian_id == cu) = some q ∧
      db1.invs = db.invs.map (fun x => if x.id == q.id then
        { x with is_approved := true, status := "approved",
                 approved_at := some now } else x) ∧
      db1.roles = db.roles := by
  unfold pd_approve_qr at h
  split at h
  · exact absurd h (by simp)
  · rename_i hrole
    refine ⟨by simpa using hrole, ?_⟩
    split at h
    · exact absurd h (by simp)
    · rename_i q hq
      refine ⟨q, hq, ?_⟩
      split at h
      · exact absurd h (by simp)
      · split at h
        · exact absurd h (by simp)
        · split at h
          · exact absurd h (by simp)
          · split at h
            · exact absurd h (by simp)
            · split at h
              · exact absurd h (by simp)
              · rw [Prod.mk.injEq] at h
                rw [← h.2]
                exact ⟨rfl, rfl⟩

/-- C1 (amended): after an approval call that succeeded, a second approval
call for the same invitation by the same guardian does not return the
relationship again — the guardian router answers 404 (the `scanned` filter
no longer matches) and the pending-dependent router answers 400
already-approved — and the state, in particular the relationship table, is
left unchanged, so no duplicate row is created. -/
theorem C1_second_approval_rejected (db : DB) (cu invId now now2 : Nat)
    (r : ApproveQRResult) (db1 : DB) :
    (g_approve_qr db cu invId now = (.ok r, db1) →
      g_approve_qr db1 cu invId now2 =
        (.error ⟨404, "QR invitation not found or already processed"⟩, db1)) ∧
    (pd_approve_qr db cu invId now = (.ok r, db1) →
      pd_approve_qr db1 cu invId now2 =
        (.error ⟨400, "QR invitation already approved"⟩, db1)) := by
  constructor
  · intro h
    obtain ⟨hrole, q, hq, hinvs, hroles⟩ := g_approve_ok_shape db cu invId now r db1 h
    have hid : q.id = invId := by
      have := List.find?_some hq
      simp only [Bool.and_eq_true, beq_iff_eq] at this
      exact this.1.1
    have hrole1 : isGuardian db1 cu = true := by
      unfold isGuardian hasRole
      rw [hroles]
      exact hrole
    have hnone : db1.invs.find? (fun x => x.id == invId && x.guardian_id == cu &&
        x.status == "scanned") = none := by
      rw [hinvs, List.find?_eq_none]
      intro x hx
      obtain ⟨y, hy, rfl⟩ := List.mem_map.mp hx
      by_cases hyq : y.id = q.id
      · simp [hyq]
      · simp [← hid, hyq]
    unfold g_approve_qr
    rw [hrole1, hnone]
    rfl
  · intro h
    obtain ⟨hrole, q, hq, hinvs, hroles⟩ := pd_approve_ok_shape db cu invId now r db1 h
    have hrole1 : isGuardian db1 cu = true := by
      unfold isGuardian hasRole
      rw [hroles]
      exact hrole
    have hfind : db1.invs.find? (fun x => x.id == invId && x.guardian_id == cu) =
        some { q with is_approved := true, status := "approved",
                      approved_at := some now } := by
      rw [hinvs, find?_map_congr _ _ _ (fun x => x.id == invId && x.guardian_id == cu)
        (by intro x; by_cases hx : x.id = q.id <;> simp [hx]), hq]
      simp
    unfold pd_approve_qr
    rw [hrole1, hfind]
    rfl

/-- Witness for C1: the amended theorem applied at the concrete state
`dbScanned`, whose first guardian-router approval produced `c1db1`. -/
theorem C1_witness :
    g_approve_qr c1db1 1 1 30 =
      (.error ⟨404, "QR invitation not found or already processed"⟩, c1db1) :=
  (C1_second_approval_rejected dbScanned 1 1 20 30 c1res c1db1).1 rfl

/-- C10 (amended): the pending-dependent router's generate fails whenever
an invitation with status `pending` or `scanned` exists for the stub, and
the guardian router's generate returns the existing token, minting
nothing, whenever an unexpired `pending`-status invitation exists.  The
guardian router's dedup query does not consider `scanned` invitations, so
it can still mint a second active invitation (see the counterexample). -/
theorem C10_generate_dedup (db : DB) (cu pdid : Nat) (token : String)
    (now : Nat) :
    ((∃ q ∈ db.invs, q.pending_dependent_id = pdid ∧
        (q.status = "pending" ∨ q.status = "scanned")) →
      ∃ e, pd_generate_qr db cu pdid token now = (.error e, db)) ∧
    (∀ q, isGuardian db cu = true →
      (db.pendings.find? (fun p => p.id == pdid && p.guardian_id == cu)).isSome →
      db.invs.find? (fun x => x.pending_dependent_id == pdid &&
        x.status == "pending") = some q →
      ¬ (q.expires_at < now) →
      g_generate_qr db cu pdid token now =
        (.ok { message := "QR code already exists", qr_token := q.qr_token,
               expires_at := q.expires_at, pending_dependent_id := pdid }, db)) := by
  constructor
  · rintro ⟨q, hm, hpd, hst⟩
    unfold pd_generate_qr
    by_cases hrole : isGuardian db cu = true
    · rw [hrole]
      cases hp : db.pendings.find? (fun p => p.id == pdid && p.guardian_id == cu) with
      | none => exact ⟨_, rfl⟩
      | some p =>
        have hactive : (db.invs.find? (fun x => x.pending_dependent_id == pdid &&
            (x.status == "pending" || x.status == "scanned"))).isSome := by
          rw [List.find?_isSome]
          refine ⟨q, hm, ?_⟩
          rcases hst with h1 | h1 <;> simp [hpd, h1]
        obtain ⟨q0, hq0⟩ := Option.isSome_iff_exists.mp hactive
        rw [hq0]
        exact ⟨_, rfl⟩
    · have : isGuardian db cu = false := by simpa using hrole
      rw [this]
      exact ⟨_, rfl⟩
  · intro q hrole hpds hfind hexp
    obtain ⟨p, hp⟩ := Option.isSome_iff_exists.mp hpds
    have hnotexp : q.is_expired now = false := by
      simp [QRInvitation.is_expired, hexp]
    unfold g_generate_qr
    rw [hrole, hp, hfind]
    simp [hnotexp]

/-- Witness for C10: the pending router refuses while the scanned
invitation of `dbScanned` is active, and the guardian router returns the
existing pending token of `dbPending` without minting. -/
theorem C10_witness :
    (∃ e, pd_generate_qr dbScanned 1 1 "tokN" 50 = (.error e, dbScanned)) ∧
    g_generate_qr dbPending 1 1 "tokN" 50 =
      (.ok { message := "QR code already exists", qr_token := "tok1",
             expires_at := 259200, pending_dependent_id := 1 }, dbPending) :=
  ⟨(C10_generate_dedup dbScanned 1 1 "tokN" 50).1
     ⟨invScanned, by decide, rfl, Or.inr rfl⟩,
   (C10_generate_dedup dbPending 1 1 "tokN" 50).2 invPending rfl (by decide)
     rfl (by decide)⟩

/-- A by-id row update that preserves tokens is visible through the token
lookup. -/
theorem getByToken_mapInvById (db : DB) (token : String) (q : QRInvitation)
    (f : QRInvitation → QRInvitation) (hf : ∀ x, (f x).qr_token = x.qr_token)
    (hq : getByToken db token = some q) :
    getByToken (mapInvById db q.id f) token = some (f q) := by
  unfold getByToken mapInvById at *
  rw [find?_map_congr _ _ _ (fun x => x.qr_token == token)
    (by intro x; by_cases hx : x.id = q.id <;> simp [hx, hf]), hq]
  simp

/-- One scan of a token whose invitation is past expiry: either endpoint
fails with its expiry error and commits exactly the status change to
`expired`. -/
theorem scan_expired_step (db : DB) (token : String) (q : QRInvitation)
    (a : ScanAttempt) (hq : getByToken db token = some q)
    (hrole : isDependentUser db a.user = true)
    (hexp : q.expires_at < a.time) :
    runScan db token a =
      (.error (expiredErr a.route),
       mapInvById db q.id (fun x => { x with status := "expired" })) := by
  have hQ : q.is_expired a.time = true := by
    simp [QRInvitation.is_expired, hexp]
  cases hr : a.route
  · simp only [runScan, hr]
    unfold pd_scan_qr
    rw [hrole, hq]
    simp [hQ, expiredErr]
  · simp only [runScan, hr]
    unfold d_scan_qr
    rw [hrole, hq]
    simp [hQ, expiredErr]

/-- C4: scanning an invitation whose expiry instant has passed always
fails with the expiry error and drives the status to `expired`, never to
`scanned`, for every sequence of retried scan attempts through either
endpoint: each attempt in the sequence errors, and the final state holds
the invitation with status `expired`. -/
theorem C4_expired_scan_terminal (db : DB) (token : String) (q : QRInvitation)
    (hq : getByToken db token = some q) (attempts : List ScanAttempt)
    (hok : ∀ a ∈ attempts, isDependentUser db a.user = true ∧
      q.expires_at < a.time) :
    (∀ pre a post, attempts = pre ++ a :: post →
       (runScan (runScans db token pre) token a).1 =
         .error (expiredErr a.route)) ∧
    (attempts ≠ [] →
       getByToken (runScans db token attempts) token =
         some { q with status := "expired" }) := by
  induction attempts generalizing db q with
  | nil =>
    constructor
    · rintro pre a post h
      exact absurd h (by simp)
    · intro h
      exact absurd rfl h
  | cons a rest ih =>
    have ha := hok a (List.mem_cons_self a rest)
    have hstep := scan_expired_step db token q a hq ha.1 ha.2
    have hq1 : getByToken (mapInvById db q.id
        (fun x => { x with status := "expired" })) token =
        some { q with status := "expired" } :=
      getByToken_mapInvById db token q _ (fun x => rfl) hq
    have hok1 : ∀ b ∈ rest, isDependentUser (mapInvById db q.id
        (fun x => { x with status := "expired" })) b.user = true ∧
        QRInvitation.expires_at { q with status := "expired" } < b.time := by
      intro b hb
      exact hok b (List.mem_cons_of_mem a hb)
    have ihr := ih (mapInvById db q.id (fun x => { x with status := "expired" }))
      { q with status := "expired" } hq1 hok1
    constructor
    · rintro pre b post hsplit
      cases pre with
      | nil =>
        simp only [List.nil_append, List.cons.injEq] at hsplit
        obtain ⟨rfl, rfl⟩ := hsplit
        show (runScan db token a).1 = _
        rw [hstep]
      | cons c pre' =>
        simp only [List.cons_append, List.cons.injEq] at hsplit
        have hset : runScans db token (c :: pre') =
            runScans (mapInvById db q.id
              (fun x => { x with status := "expired" })) token pre' := by
          show runScans (runScan db token c).2 token pre' = _
          rw [← hsplit.1, hstep]
        rw [hset]
        exact ihr.1 pre' b post hsplit.2
    · intro _
      show getByToken (runScans (runScan db token a).2 token rest) token = _
      rw [hstep]
      cases rest with
      | nil => exact hq1
      | cons b rest' => exact ihr.2 (by simp)

/-- Witness for C4: two retried scans, one per endpoint, of the stale
token of `dbStale`; the final state holds the invitation expired. -/
theorem C4_witness :
    getByToken (runScans dbStale "tokE"
      [⟨ScanRoute.pdR, 3, 200⟩, ⟨ScanRoute.dR, 3, 300⟩]) "tokE" =
      some { invStale with status := "expired" } :=
  (C4_expired_scan_terminal dbStale "tokE" invStale rfl
    [⟨ScanRoute.pdR, 3, 200⟩, ⟨ScanRoute.dR, 3, 300⟩] (by decide)).2 (by simp)

/-- Role insertion does not touch the relationship table. -/
theorem addRoleIfMissing_rels (db : DB) (uid : Nat) (r : String) :
    (addRoleIfMissing db uid r).rels = db.rels := by
  unfold addRoleIfMissing
  split <;> rfl

/-- Role insertion does not touch the invitation table. -/
theorem addRoleIfMissing_invs (db : DB) (uid : Nat) (r : String) :
    (addRoleIfMissing db uid r).invs = db.invs := by
  unfold addRoleIfMissing
  split <;> rfl

/-- A by-id invitation update does not touch the relationship table. -/
theorem mapInvById_rels (db : DB) (i : Nat) (f : QRInvitation → QRInvitation) :
    (mapInvById db i f).rels = db.rels := rfl

/-- What a successful dependent-router scan does when all preconditions
hold: it returns the linked response, rewrites the invitation row straight
to `approved` with the scanner recorded, and, when no relationship existed
for the pair, appends one with `is_primary` and `guardian_type` primary. -/
theorem d_scan_ok_core (db : DB) (cu : Nat) (token : String) (now : Nat)
    (q : QRInvitation) (p : PendingDependent)
    (hrole : isDependentUser db cu = true)
    (hq : getByToken db token = some q)
    (hexp : q.is_expired now = false)
    (hst : (q.status == "pending" || q.status == "scanned") = true)
    (hgne : (q.guardian_id == cu) = false)
    (hp : db.pendings.find? (fun x => x.id == q.pending_dependent_id) = some p)
    (hg : db.users.contains q.guardian_id = true) :
    (d_scan_qr db cu token now).1 =
      .ok { message := "Successfully linked", guardian_id := q.guardian_id,
            qr_invitation_id := q.id } ∧
    (d_scan_qr db cu token now).2.invs = db.invs.map (fun x =>
      if x.id == q.id then
        { x with scanned_by_user_id := some cu, status := "approved",
                 is_approved := true, scanned_at := some now,
                 approved_at := some now }
      else x) ∧
    (db.rels.find? (fun r => r.guardian_id == q.guardian_id &&
        r.dependent_id == cu) = none →
      ∃ nr, nr ∈ (d_scan_qr db cu token now).2.rels ∧
        nr.guardian_id = q.guardian_id ∧ nr.dependent_id = cu ∧
        nr.is_primary = true ∧ nr.guardian_type = "primary") := by
  have hgmem : q.guardian_id ∈ db.users := by simpa using hg
  cases hrel : db.rels.find? (fun r => r.guardian_id == q.guardian_id &&
      r.dependent_id == cu) with
  | some r0 =>
    refine ⟨?_, ?_, ?_⟩
    · simp [d_scan_qr, hrole, hq, hexp, hst, hgne, hp, hg, hgmem]
    · by_cases h1 : p.relation = "child"
      · simp [d_scan_qr, hrole, hq, hexp, hst, hgne, hp, hg, hgmem, hrel,
          mapInvById_rels, h1, addRoleIfMissing_invs, mapInvById]
      · by_cases h2 : p.relation = "elderly" <;>
          simp [d_scan_qr, hrole, hq, hexp, hst, hgne, hp, hg, hgmem, hrel,
            mapInvById_rels, h1, h2, addRoleIfMissing_invs, mapInvById]
    · intro hnone
      exact Option.noConfusion hnone
  | none =>
    refine ⟨?_, ?_, ?_⟩
    · simp [d_scan_qr, hrole, hq, hexp, hst, hgne, hp, hg, hgmem]
    · by_cases h1 : p.relation = "child"
      · simp [d_scan_qr, hrole, hq, hexp, hst, hgne, hp, hg, hgmem, hrel,
          mapInvById_rels, h1, addRoleIfMissing_invs, mapInvById]
      · by_cases h2 : p.relation = "elderly" <;>
          simp [d_scan_qr, hrole, hq, hexp, hst, hgne, hp, hg, hgmem, hrel,
            mapInvById_rels, h1, h2, addRoleIfMissing_invs, mapInvById]
    · intro _
      refine ⟨{ id := db.nextRelId, guardian_id := q.guardian_id,
                dependent_id := cu, relation := p.relation,
                is_primary := true, guardian_type := "primary",
                pending_dependent_id := some p.id, created_at := now },
              ?_, rfl, rfl, rfl, rfl⟩
      by_cases h1 : p.relation = "child"
      · simp [d_scan_qr, hrole, hq, hexp, hst, hgne, hp, hg, hgmem, hrel,
          mapInvById_rels, h1, addRoleIfMissing_rels, mapInvById]
      · by_cases h2 : p.relation = "elderly" <;>
          simp [d_scan_qr, hrole, hq, hexp, hst, hgne, hp, hg, hgmem, hrel,
            mapInvById_rels, h1, h2, addRoleIfMissing_rels, mapInvById]

/-- C5 (amended): for an unexpired, unapproved invitation in status
`scanned`, a re-scan through the pending-dependent router fails with
AlreadyProcessed for every user — the model accepts only status `pending`
in `can_be_scanned` — while through the dependent router a second scan by
the same scanning user succeeds but moves the status to `approved`
(keeping `redeemed_by` that same user) instead of leaving it `scanned`. -/
theorem C5_rescan_not_idempotent (db : DB) (q : QRInvitation) (token : String)
    (cu now : Nat) (hq : getByToken db token = some q)
    (hst : q.status = "scanned") (hexp : ¬ (q.expires_at < now))
    (hrole : isDependentUser db cu = true) :
    pd_scan_qr db cu token now =
      (.error ⟨400, "QR code cannot be scanned. Current status: scanned"⟩, db) ∧
    (∀ p, q.scanned_by_user_id = some cu → ¬ (q.guardian_id = cu) →
      db.pendings.find? (fun x => x.id == q.pending_dependent_id) = some p →
      db.users.contains q.guardian_id = true →
      (d_scan_qr db cu token now).1 =
        .ok { message := "Successfully linked", guardian_id := q.guardian_id,
              qr_invitation_id := q.id } ∧
      getByToken (d_scan_qr db cu token now).2 token =
        some { q with status := "approved", is_approved := true,
                      scanned_by_user_id := some cu, scanned_at := some now,
                      approved_at := some now }) := by
  have hexpb : q.is_expired now = false := by
    simp [QRInvitation.is_expired, hexp]
  constructor
  · have hcan : q.can_be_scanned now = false := by
      simp [QRInvitation.can_be_scanned, hst]
    unfold pd_scan_qr
    rw [hrole, hq]
    simp [hexpb, hcan, hst]
  · intro p hsb hgne hp hg
    have hstb : (q.status == "pending" || q.status == "scanned") = true := by
      simp [hst]
    have hgneb : (q.guardian_id == cu) = false := by simp [hgne]
    obtain ⟨h1, h2, h3⟩ :=
      d_scan_ok_core db cu token now q p hrole hq hexpb hstb hgneb hp hg
    refine ⟨h1, ?_⟩
    show (d_scan_qr db cu token now).2.invs.find? (fun x => x.qr_token == token) = _
    rw [h2, find?_map_congr _ _ _ (fun x => x.qr_token == token)
      (by intro x; by_cases hx : x.id = q.id <;> simp [hx])]
    rw [show db.invs.find? (fun x => x.qr_token == token) = some q from hq]
    simp

/-- Witness for C5: the scanned invitation of `dbScanned` re-scanned by
user 3 — rejected by the pending router, auto-approved by the dependent
router. -/
theorem C5_witness :
    pd_scan_qr dbScanned 3 "tok1" 20 =
      (.error ⟨400, "QR code cannot be scanned. Current status: scanned"⟩,
       dbScanned) ∧
    getByToken (d_scan_qr dbScanned 3 "tok1" 20).2 "tok1" =
      some { invScanned with status := "approved", is_approved := true,
                             scanned_by_user_id := some 3,
                             scanned_at := some 20, approved_at := some 20 } :=
  ⟨(C5_rescan_not_idempotent dbScanned invScanned "tok1" 3 20 rfl rfl
      (by decide) rfl).1,
   ((C5_rescan_not_idempotent dbScanned invScanned "tok1" 3 20 rfl rfl
      (by decide) rfl).2 pdStub rfl (by decide) rfl rfl).2⟩

/-- Inverting a successful dependent-router scan: all preconditions held
at the call. -/
theorem d_scan_ok_inversion (db : DB) (cu : Nat) (token : String) (now : Nat)
    (r : ScanQRResult) (db1 : DB)
    (h : d_scan_qr db cu token now = (.ok r, db1)) :
    isDependentUser db cu = true ∧ ∃ q p,
      getByToken db token = some q ∧ q.is_expired now = false ∧
      (q.status == "pending" || q.status == "scanned") = true ∧
      (q.guardian_id == cu) = false ∧
      db.pendings.find? (fun x => x.id == q.pending_dependent_id) = some p ∧
      db.users.contains q.guardian_id = true := by
  unfold d_scan_qr at h
  split at h
  · exact absurd h (by simp)
  · rename_i hrole
    split at h
    · exact absurd h (by simp)
    · rename_i q hq
      split at h
      · exact absurd h (by simp)
      · rename_i hexp
        split at h
        · exact absurd h (by simp)
        · rename_i hst
          split at h
          · exact absurd h (by simp)
          · rename_i hgne
            split at h
            · exact absurd h (by simp)
            · rename_i p hp
              split at h
              · exact absurd h (by simp)
              · rename_i hg
                refine ⟨by simpa using hrole, q, p, hq, ?_, ?_, ?_, hp, ?_⟩
                · simpa using hexp
                · cases hx : (q.status == "pending" || q.status == "scanned") with
                  | true => rfl
                  | false => exact absurd (by rw [hx]; rfl) hst
                · simpa using hgne
                · cases hx : db.users.contains q.guardian_id with
                  | true => rfl
                  | false => exact absurd (by rw [hx]; rfl) hg

/-- C9: a successful dependent-router scan of a token in status `pending`
or `scanned` immediately drives the invitation to `approved` with
`is_approved` true — there is no intermediate `scanned` state and no
guardian approval step — and, when no relationship for the pair existed,
a relationship with `is_primary` true and `guardian_type` primary now
exists. -/
theorem C9_dependent_scan_auto_approves (db : DB) (cu : Nat) (token : String)
    (now : Nat) (r : ScanQRResult) (db1 : DB)
    (h : d_scan_qr db cu token now = (.ok r, db1)) :
    ∃ q, getByToken db token = some q ∧
      (q.status = "pending" ∨ q.status = "scanned") ∧
      q.is_expired now = false ∧
      getByToken db1 token =
        some { q with status := "approved", is_approved := true,
                      scanned_by_user_id := some cu, scanned_at := some now,
                      approved_at := some now } ∧
      (db.rels.find? (fun x => x.guardian_id == q.guardian_id &&
          x.dependent_id == cu) = none →
        ∃ nr, nr ∈ db1.rels ∧ nr.guardian_id = q.guardian_id ∧
          nr.dependent_id = cu ∧ nr.is_primary = true ∧
          nr.guardian_type = "primary") := by
  obtain ⟨hrole, q, p, hq, hexp, hst, hgne, hp, hg⟩ :=
    d_scan_ok_inversion db cu token now r db1 h
  obtain ⟨h1, h2, h3⟩ :=
    d_scan_ok_core db cu token now q p hrole hq hexp hst hgne hp hg
  have hdb1 : db1 = (d_scan_qr db cu token now).2 := by rw [h]
  refine ⟨q, hq, ?_, hexp, ?_, ?_⟩
  · have := hst
    simp only [Bool.or_eq_true, beq_iff_eq] at this
    exact this
  · rw [hdb1]
    show (d_scan_qr db cu token now).2.invs.find? (fun x => x.qr_token == token) = _
    rw [h2, find?_map_congr _ _ _ (fun x => x.qr_token == token)
      (by intro x; by_cases hx : x.id = q.id <;> simp [hx])]
    rw [show db.invs.find? (fun x => x.qr_token == token) = some q from hq]
    simp
  · intro hnone
    rw [hdb1]
    exact h3 hnone

/-- Witness for C9: the pending invitation of `dbPending` scanned by
child 3 through the dependent router. -/
theorem C9_witness :
    ∃ q, getByToken dbPending "tok1" = some q ∧
      (q.status = "pending" ∨ q.status = "scanned") ∧
      q.is_expired 50 = false ∧
      getByToken (d_scan_qr dbPending 3 "tok1" 50).2 "tok1" =
        some { q with status := "approved", is_approved := true,
                      scanned_by_user_id := some 3, scanned_at := some 50,
                      approved_at := some 50 } ∧
      (dbPending.rels.find? (fun x => x.guardian_id == q.guardian_id &&
          x.dependent_id == 3) = none →
        ∃ nr, nr ∈ (d_scan_qr dbPending 3 "tok1" 50).2.rels ∧
          nr.guardian_id = q.guardian_id ∧ nr.dependent_id = 3 ∧
          nr.is_primary = true ∧ nr.guardian_type = "primary") :=
  C9_dependent_scan_auto_approves dbPending 3 "tok1" 50
    { message := "Successfully linked", guardian_id := 1,
      qr_invitation_id := 1 }
    (d_scan_qr dbPending 3 "tok1" 50).2 rfl

/-- Setting fields of the row keyed `i` is visible through `invStatus`
whenever some row with that key exists. -/
theorem invStatus_mapInvById (db : DB) (i : Nat) (s : String)
    (f : QRInvitation → QRInvitation) (hid : ∀ x, (f x).id = x.id)
    (hs : ∀ x, (f x).status = s)
    (hex : (db.invs.find? (fun x => x.id == i)).isSome) :
    invStatus (mapInvById db i f) i = some s := by
  unfold invStatus mapInvById
  rw [find?_map_congr _ _ _ (fun x => x.id == i)
    (by intro x; by_cases hx : x.id = i <;> simp [hx, hid])]
  obtain ⟨q0, hq0⟩ := Option.isSome_iff_exists.mp hex
  rw [hq0]
  have hq0i : q0.id = i := by simpa using List.find?_some hq0
  simp [hq0i, hs]

/-- Rewriting a different row leaves `invStatus` at key `i` unchanged. -/
theorem invStatus_mapInvById_other (db : DB) (j : Nat)
    (f : QRInvitation → QRInvitation) (hid : ∀ x, (f x).id = x.id)
    (i : Nat) (hne : ¬ j = i) :
    invStatus (mapInvById db j f) i = invStatus db i := by
  unfold invStatus mapInvById
  rw [find?_map_congr _ _ _ (fun x => x.id == i)
    (by intro x; by_cases hx : x.id = j <;> simp [hx, hid])]
  cases hfi : db.invs.find? (fun x => x.id == i) with
  | none => rfl
  | some q0 =>
    have hq0i : q0.id = i := by simpa using List.find?_some hfi
    have hne2 : ¬ q0.id = j := by
      rw [hq0i]
      exact fun he => hne he.symm
    simp [hne2]

/-- Role insertion leaves `invStatus` unchanged. -/
theorem invStatus_addRole (db : DB) (uid : Nat) (r : String) (i : Nat) :
    invStatus (addRoleIfMissing db uid r) i = invStatus db i := by
  unfold addRoleIfMissing
  split <;> rfl

/-- With pairwise-distinct ids, a member row is what `invStatus` sees. -/
theorem invStatus_of_mem (db : DB) (q : QRInvitation)
    (hn : (db.invs.map (fun x => x.id)).Nodup) (hm : q ∈ db.invs) :
    invStatus db q.id = some q.status := by
  unfold invStatus
  rw [find?_key_of_mem (fun x => x.id) db.invs q hn hm]
  rfl

/-- C6 (amended): in the pending-dependent router, rejecting a
never-scanned invitation fails with InvalidState, and a successful reject
of a scanned invitation sets status `rejected` and touches no relationship
row; the guardian-router reject succeeds for any owned invitation
regardless of its status, also setting `rejected` and touching no
relationship row. -/
theorem C6_reject_behavior (db : DB) (cu invId : Nat) :
    (∀ q, isGuardian db cu = true →
      db.invs.find? (fun x => x.id == invId && x.guardian_id == cu) = some q →
      ¬ (q.status = "scanned") →
      pd_reject_qr db cu invId =
        (.error ⟨400, "Can only reject scanned QR codes"⟩, db)) ∧
    (∀ q, isGuardian db cu = true →
      db.invs.find? (fun x => x.id == invId && x.guardian_id == cu) = some q →
      q.status = "scanned" →
      (pd_reject_qr db cu invId).1 = .ok () ∧
      invStatus (pd_reject_qr db cu invId).2 q.id = some "rejected" ∧
      (pd_reject_qr db cu invId).2.rels = db.rels) ∧
    (∀ q, isGuardian db cu = true →
      db.invs.find? (fun x => x.id == invId && x.guardian_id == cu) = some q →
      (g_reject_qr db cu invId).1 = .ok () ∧
      invStatus (g_reject_qr db cu invId).2 q.id = some "rejected" ∧
      (g_reject_qr db cu invId).2.rels = db.rels) := by
  refine ⟨?_, ?_, ?_⟩
  · intro q hrole hfind hnst
    have hstb : (q.status == "scanned") = false := by simp [hnst]
    unfold pd_reject_qr
    rw [hrole, hfind]
    simp [hstb]
  · intro q hrole hfind hst
    have hstb : (q.status == "scanned") = true := by simp [hst]
    have hex : (db.invs.find? (fun x => x.id == q.id)).isSome := by
      rw [List.find?_isSome]
      exact ⟨q, List.mem_of_find?_eq_some hfind, by simp⟩
    have key : pd_reject_qr db cu invId =
        (.ok (), mapInvById db q.id (fun x =>
          { x with status := "rejected", is_approved := false })) := by
      unfold pd_reject_qr
      rw [hrole, hfind]
      simp [hstb]
    rw [key]
    exact ⟨rfl, invStatus_mapInvById db q.id "rejected" _ (fun x => rfl)
      (fun x => rfl) hex, rfl⟩
  · intro q hrole hfind
    have hex : (db.invs.find? (fun x => x.id == q.id)).isSome := by
      rw [List.find?_isSome]
      exact ⟨q, List.mem_of_find?_eq_some hfind, by simp⟩
    have key : g_reject_qr db cu invId =
        (.ok (), mapInvById db q.id (fun x =>
          { x with status := "rejected" })) := by
      unfold g_reject_qr
      rw [hrole, hfind]
      rfl
    rw [key]
    exact ⟨rfl, invStatus_mapInvById db q.id "rejected" _ (fun x => rfl)
      (fun x => rfl) hex, rfl⟩

/-- Witness for C6: the never-scanned invitation of `dbPending` cannot be
rejected through the pending router, while the scanned invitation of
`dbScanned` is rejected successfully. -/
theorem C6_witness :
    pd_reject_qr dbPending 1 1 =
      (.error ⟨400, "Can only reject scanned QR codes"⟩, dbPending) ∧
    invStatus (pd_reject_qr dbScanned 1 1).2 1 = some "rejected" :=
  ⟨(C6_reject_behavior dbPending 1 1).1 invPending rfl rfl (by decide),
   ((C6_reject_behavior dbScanned 1 1).2.1 invScanned rfl rfl rfl).2.1⟩

/-- A Boolean whose negation is refuted is true. -/
theorem eq_true_of_not_not (b : Bool) (h : ¬ ((!b) = true)) : b = true := by
  cases hx : b
  · exact absurd (by rw [hx]; rfl) h
  · rfl

/-- With pairwise-distinct keys, members with equal keys are equal. -/
theorem mem_eq_of_key_eq {α β : Type} [DecidableEq β] (key : α → β)
    (l : List α) (a b : α) (hn : (l.map key).Nodup) (ha : a ∈ l) (hb : b ∈ l)
    (hk : key a = key b) : a = b := by
  by_cases h : a = b
  · exact h
  · exact absurd hk (key_ne_of_mem_ne key l a b hn ha hb h)

/-- Rows differing in status are different rows. -/
theorem ne_of_status_ne (q q2 : QRInvitation)
    (h : ¬ q2.status = q.status) : ¬ q2 = q :=
  fun he => h (by rw [he])

/-- Rewriting a different member row through `mapInvById` leaves the
status of row `q` intact. -/
theorem terminal_other_row (db : DB) (q q2 : QRInvitation)
    (hn : (db.invs.map (fun x => x.id)).Nodup) (hm : q ∈ db.invs)
    (hm2 : q2 ∈ db.invs) (hne : ¬ q2 = q)
    (f : QRInvitation → QRInvitation) (hid : ∀ x, (f x).id = x.id) :
    invStatus (mapInvById db q2.id f) q.id = some q.status := by
  rw [invStatus_mapInvById_other db q2.id f hid q.id
    (key_ne_of_mem_ne (fun x => x.id) db.invs q2 q hn hm2 hm hne)]
  exact invStatus_of_mem db q hn hm

/-- C3 (amended): `approved`, `rejected` and `expired` are terminal with
respect to both approve operations, the pending-dependent reject, and any
scan executed no later than the invitation expiry instant; the
guardian-router reject, however, rewrites any owned invitation to
`rejected` whatever its status, and a scan past `expires_at` rewrites the
status to `expired` (see the counterexample). -/
theorem C3_terminal_statuses (db : DB) (q : QRInvitation)
    (hn : (db.invs.map (fun x => x.id)).Nodup) (hm : q ∈ db.invs)
    (hterm : q.status = "approved" ∨ q.status = "rejected" ∨
      q.status = "expired") :
    (∀ cu invId now,
      invStatus (pd_approve_qr db cu invId now).2 q.id = some q.status) ∧
    (∀ cu invId now,
      invStatus (g_approve_qr db cu invId now).2 q.id = some q.status) ∧
    (∀ cu invId,
      invStatus (pd_reject_qr db cu invId).2 q.id = some q.status) ∧
    (∀ cu token now, ¬ (q.expires_at < now) →
      invStatus (pd_scan_qr db cu token now).2 q.id = some q.status) ∧
    (∀ cu token now, ¬ (q.expires_at < now) →
      invStatus (d_scan_qr db cu token now).2 q.id = some q.status) := by
  have hbase : invStatus db q.id = some q.status := invStatus_of_mem db q hn hm
  have hqstat : ¬ "scanned" = q.status := by
    rcases hterm with h | h | h <;> simp [h]
  have hqpend : ¬ "pending" = q.status := by
    rcases hterm with h | h | h <;> simp [h]
  refine ⟨?_, ?_, ?_, ?_, ?_⟩
  · intro cu invId now
    unfold pd_approve_qr
    split
    · exact hbase
    · split
      · exact hbase
      · rename_i q2 hq2
        split
        · exact hbase
        · split
          · exact hbase
          · rename_i h2 h3
            have hst2 : q2.status = "scanned" := by
              simpa using eq_true_of_not_not _ h3
            have hne : ¬ q2 = q :=
              ne_of_status_ne q q2 (by rw [hst2]; exact hqstat)
            have hm2 := List.mem_of_find?_eq_some hq2
            split
            · exact hbase
            · split
              · exact hbase
              · split
                · exact hbase
                · exact terminal_other_row db q q2 hn hm hm2 hne _
                    (fun x => rfl)
  · intro cu invId now
    unfold g_approve_qr
    split
    · exact hbase
    · split
      · exact hbase
      · rename_i q2 hq2
        have hpred := List.find?_some hq2
        simp only [Bool.and_eq_true, beq_iff_eq] at hpred
        have hne : ¬ q2 = q :=
          ne_of_status_ne q q2 (by rw [hpred.2]; exact hqstat)
        have hm2 := List.mem_of_find?_eq_some hq2
        split
        · exact hbase
        · split
          · exact hbase
          · split
            · exact terminal_other_row db q q2 hn hm hm2 hne _ (fun x => rfl)
            · exact terminal_other_row db q q2 hn hm hm2 hne _ (fun x => rfl)
  · intro cu invId
    unfold pd_reject_qr
    split
    · exact hbase
    · split
      · exact hbase
      · rename_i q2 hq2
        split
        · exact hbase
        · rename_i h3
          have hst2 : q2.status = "scanned" := by
            simpa using eq_true_of_not_not _ h3
          have hne : ¬ q2 = q :=
            ne_of_status_ne q q2 (by rw [hst2]; exact hqstat)
          exact terminal_other_row db q q2 hn hm
            (List.mem_of_find?_eq_some hq2) hne _ (fun x => rfl)
  · intro cu token now hnow
    unfold pd_scan_qr
    split
    · exact hbase
    · split
      · exact hbase
      · rename_i q2 hq2
        unfold getByToken at hq2
        have hm2 := List.mem_of_find?_eq_some hq2
        split
        · rename_i hx
          have hne : ¬ q2 = q := by
            intro he
            rw [he] at hx
            exact hnow (by simpa [QRInvitation.is_expired] using hx)
          exact terminal_other_row db q q2 hn hm hm2 hne _ (fun x => rfl)
        · split
          · exact hbase
          · split
            · exact hbase
            · rename_i h3 h4
              have hcan : q2.can_be_scanned now = true :=
                eq_true_of_not_not _ h3
              have hst2 : q2.status = "pending" := by
                have := hcan
                unfold QRInvitation.can_be_scanned at this
                simp only [Bool.and_eq_true, beq_iff_eq] at this
                exact this.1
              have hne : ¬ q2 = q :=
                ne_of_status_ne q q2 (by rw [hst2]; exact hqpend)
              dsimp only
              split
              · exact terminal_other_row db q q2 hn hm hm2 hne _ (fun x => rfl)
              · split
                · exact terminal_other_row db q q2 hn hm hm2 hne _
                    (fun x => rfl)
                · exact terminal_other_row db q q2 hn hm hm2 hne _
                    (fun x => rfl)
  · intro cu token now hnow
    unfold d_scan_qr
    split
    · exact hbase
    · split
      · exact hbase
      · rename_i q2 hq2
        unfold getByToken at hq2
        have hm2 := List.mem_of_find?_eq_some hq2
        split
        · rename_i hx
          have hne : ¬ q2 = q := by
            intro he
            rw [he] at hx
            exact hnow (by simpa [QRInvitation.is_expired] using hx)
          exact terminal_other_row db q q2 hn hm hm2 hne _ (fun x => rfl)
        · split
          · exact hbase
          · split
            · exact hbase
            · rename_i h3 h4
              have hstb : (q2.status == "pending" ||
                  q2.status == "scanned") = true := eq_true_of_not_not _ h3
              have hst2 : q2.status = "pending" ∨ q2.status = "scanned" := by
                simpa using hstb
              have hne : ¬ q2 = q := by
                rcases hst2 with h5 | h5
                · exact ne_of_status_ne q q2 (by rw [h5]; exact hqpend)
                · exact ne_of_status_ne q q2 (by rw [h5]; exact hqstat)
              dsimp only
              split
              · exact hbase
              · split
                · exact hbase
                · split
                  · rw [invStatus_addRole]
                    split
                    · exact terminal_other_row db q q2 hn hm hm2 hne _
                        (fun x => rfl)
                    · exact terminal_other_row db q q2 hn hm hm2 hne _
                        (fun x => rfl)
                  · split
                    · rw [invStatus_addRole]
                      split
                      · exact terminal_other_row db q q2 hn hm hm2 hne _
                          (fun x => rfl)
                      · exact terminal_other_row db q q2 hn hm hm2 hne _
                          (fun x => rfl)
                    · split
                      · exact terminal_other_row db q q2 hn hm hm2 hne _
                          (fun x => rfl)
                      · exact terminal_other_row db q q2 hn hm hm2 hne _
                          (fun x => rfl)

/-- Witness for C3: the approved invitation of `dbApproved` keeps its
status under a pending-router reject and under an in-date scan. -/
theorem C3_witness :
    invStatus (pd_reject_qr dbApproved 1 1).2 1 = some "approved" ∧
    invStatus (pd_scan_qr dbApproved 3 "tok1" 20).2 1 = some "approved" :=
  ⟨(C3_terminal_statuses dbApproved invApproved (by decide) (by decide)
      (Or.inl rfl)).2.2.1 1 1,
   (C3_terminal_statuses dbApproved invApproved (by decide) (by decide)
      (Or.inl rfl)).2.2.2.1 3 "tok1" 20 (by decide)⟩

/-- C7 (amended): every create, generate, approve, reject or delete call
that fails leaves the database unchanged; a failing scan also leaves it
unchanged except in exactly one case — the invitation is past
`expires_at`, where the scan commits the status change to `expired`
before raising the expiry error (see the counterexample).  For the
pending-router scan, the premise that every invitation has its stub and
guardian rows in place rules out the response-construction crash after
the committed update; it holds in every reachable state by the cascade
delete. -/
theorem C7_failure_atomicity (db : DB) :
    (∀ cu name rel age now e db2,
      create_pending_dependent db cu name rel age now = (.error e, db2) →
        db2 = db) ∧
    (∀ cu pdid token now e db2,
      pd_generate_qr db cu pdid token now = (.error e, db2) → db2 = db) ∧
    (∀ cu pdid token now e db2,
      g_generate_qr db cu pdid token now = (.error e, db2) → db2 = db) ∧
    (∀ cu invId now e db2,
      pd_approve_qr db cu invId now = (.error e, db2) → db2 = db) ∧
    (∀ cu invId now e db2,
      g_approve_qr db cu invId now = (.error e, db2) → db2 = db) ∧
    (∀ cu invId e db2,
      pd_reject_qr db cu invId = (.error e, db2) → db2 = db) ∧
    (∀ cu invId e db2,
      g_reject_qr db cu invId = (.error e, db2) → db2 = db) ∧
    (∀ cu pdid e db2,
      pd_delete_pending db cu pdid = (.error e, db2) → db2 = db) ∧
    (∀ cu pdid e db2,
      g_delete_pending db cu pdid = (.error e, db2) → db2 = db) ∧
    (∀ cu token now e db2,
      (∀ x ∈ db.invs,
        (db.pendings.find? (fun p => p.id == x.pending_dependent_id)).isSome ∧
        db.users.contains x.guardian_id = true) →
      pd_scan_qr db cu token now = (.error e, db2) →
      db2 = db ∨ (e = ⟨400, "QR code has expired"⟩ ∧
        invsOnlyExpired db db2 token)) ∧
    (∀ cu token now e db2,
      d_scan_qr db cu token now = (.error e, db2) →
      db2 = db ∨
        (e = ⟨400, "QR code has expired. Please ask your guardian for a new one."⟩ ∧
         invsOnlyExpired db db2 token)) := by
  refine ⟨?_, ?_, ?_, ?_, ?_, ?_, ?_, ?_, ?_, ?_, ?_⟩
  · intro cu name rel age now e db2 h
    unfold create_pending_dependent at h
    split at h
    · rw [Prod.mk.injEq] at h
      exact h.2.symm
    · exact absurd h (by simp)
  · intro cu pdid token now e db2 h
    unfold pd_generate_qr at h
    split at h
    · rw [Prod.mk.injEq] at h
      exact h.2.symm
    · split at h
      · rw [Prod.mk.injEq] at h
        exact h.2.symm
      · split at h
        · rw [Prod.mk.injEq] at h
          exact h.2.symm
        · exact absurd h (by simp)
  · intro cu pdid token now e db2 h
    unfold g_generate_qr at h
    split at h
    · rw [Prod.mk.injEq] at h
      exact h.2.symm
    · split at h
      · rw [Prod.mk.injEq] at h
        exact h.2.symm
      · split at h
        · split at h
          · exact absurd h (by simp)
          · exact absurd h (by simp)
        · exact absurd h (by simp)
  · intro cu invId now e db2 h
    unfold pd_approve_qr at h
    split at h
    · rw [Prod.mk.injEq] at h
      exact h.2.symm
    · split at h
      · rw [Prod.mk.injEq] at h
        exact h.2.symm
      · split at h
        · rw [Prod.mk.injEq] at h
          exact h.2.symm
        · split at h
          · rw [Prod.mk.injEq] at h
            exact h.2.symm
          · split at h
            · rw [Prod.mk.injEq] at h
              exact h.2.symm
            · split at h
              · rw [Prod.mk.injEq] at h
                exact h.2.symm
              · split at h
                · rw [Prod.mk.injEq] at h
                  exact h.2.symm
                · exact absurd h (by simp)
  · intro cu invId now e db2 h
    unfold g_approve_qr at h
    split at h
    · rw [Prod.mk.injEq] at h
      exact h.2.symm
    · split at h
      · rw [Prod.mk.injEq] at h
        exact h.2.symm
      · split at h
        · rw [Prod.mk.injEq] at h
          exact h.2.symm
        · split at h
          · rw [Prod.mk.injEq] at h
            exact h.2.symm
          · split at h
            · exact absurd h (by simp)
            · exact absurd h (by simp)
  · intro cu invId e db2 h
    unfold pd_reject_qr at h
    split at h
    · rw [Prod.mk.injEq] at h
      exact h.2.symm
    · split at h
      · rw [Prod.mk.injEq] at h
        exact h.2.symm
      · split at h
        · rw [Prod.mk.injEq] at h
          exact h.2.symm
        · exact absurd h (by simp)
  · intro cu invId e db2 h
    unfold g_reject_qr at h
    split at h
    · rw [Prod.mk.injEq] at h
      exact h.2.symm
    · split at h
      · rw [Prod.mk.injEq] at h
        exact h.2.symm
      · exact absurd h (by simp)
  · intro cu pdid e db2 h
    unfold pd_delete_pending at h
    split at h
    · rw [Prod.mk.injEq] at h
      exact h.2.symm
    · split at h
      · rw [Prod.mk.injEq] at h
        exact h.2.symm
      · split at h
        · rw [Prod.mk.injEq] at h
          exact h.2.symm
        · exact absurd h (by simp)
  · intro cu pdid e db2 h
    unfold g_delete_pending at h
    split at h
    · rw [Prod.mk.injEq] at h
      exact h.2.symm
    · split at h
      · rw [Prod.mk.injEq] at h
        exact h.2.symm
      · exact absurd h (by simp)
  · intro cu token now e db2 hwf h
    unfold pd_scan_qr at h
    split at h
    · rw [Prod.mk.injEq] at h
      exact Or.inl h.2.symm
    · split at h
      · rw [Prod.mk.injEq] at h
        exact Or.inl h.2.symm
      · rename_i q2 hq2
        split at h
        · rw [Prod.mk.injEq] at h
          refine Or.inr ⟨?_, q2, hq2, h.2.symm⟩
          have := h.1
          simp only [Except.error.injEq] at this
          exact this.symm
        · split at h
          · rw [Prod.mk.injEq] at h
            exact Or.inl h.2.symm
          · split at h
            · rw [Prod.mk.injEq] at h
              exact Or.inl h.2.symm
            · have hm2 : q2 ∈ db.invs := by
                unfold getByToken at hq2
                exact List.mem_of_find?_eq_some hq2
              dsimp only at h
              split at h
              · rename_i hnone
                have hsome := (hwf q2 hm2).1
                rw [show (mapInvById db q2.id (fun x =>
                    { x with scanned_by_user_id := some cu,
                             status := "scanned",
                             scanned_at := some now })).pendings = db.pendings
                  from rfl] at hnone
                rw [hnone] at hsome
                simp at hsome
              · split at h
                · exact absurd h (by simp)
                · rename_i hcont
                  exact absurd ((hwf q2 hm2).2) hcont
  · intro cu token now e db2 h
    unfold d_scan_qr at h
    split at h
    · rw [Prod.mk.injEq] at h
      exact Or.inl h.2.symm
    · split at h
      · rw [Prod.mk.injEq] at h
        exact Or.inl h.2.symm
      · rename_i q2 hq2
        split at h
        · rw [Prod.mk.injEq] at h
          refine Or.inr ⟨?_, q2, hq2, h.2.symm⟩
          have := h.1
          simp only [Except.error.injEq] at this
          exact this.symm
        · split at h
          · rw [Prod.mk.injEq] at h
            exact Or.inl h.2.symm
          · split at h
            · rw [Prod.mk.injEq] at h
              exact Or.inl h.2.symm
            · split at h
              · rw [Prod.mk.injEq] at h
                exact Or.inl h.2.symm
              · split at h
                · rw [Prod.mk.injEq] at h
                  exact Or.inl h.2.symm
                · exact absurd h (by simp)

/-- Witness for C7: a failing approval leaves `dbScanned` untouched, and
the failing expired scan on `dbStale` falls in the expiry exception. -/
theorem C7_witness :
    (pd_approve_qr dbScanned 2 1 20).2 = dbScanned ∧
    ((pd_scan_qr dbStale 3 "tokE" 200).2 = dbStale ∨
      ((⟨400, "QR code has expired"⟩ : HErr) = ⟨400, "QR code has expired"⟩ ∧
       invsOnlyExpired dbStale (pd_scan_qr dbStale 3 "tokE" 200).2 "tokE")) :=
  ⟨(C7_failure_atomicity dbScanned).2.2.2.1 2 1 20
     ⟨404, "QR invitation not found or not owned by you"⟩
     (pd_approve_qr dbScanned 2 1 20).2 rfl,
   (C7_failure_atomicity dbStale).2.2.2.2.2.2.2.2.2.1 3 "tokE" 200
     ⟨400, "QR code has expired"⟩ (pd_scan_qr dbStale 3 "tokE" 200).2
     (by decide) rfl⟩

/-- The expiry rewrite preserves the redeemed-by invariant. -/
theorem C8Inv_expire (x : QRInvitation) (hx : C8Inv x) :
    C8Inv { x with status := "expired" } := by
  obtain ⟨-, h2, -⟩ := hx
  exact ⟨fun h => absurd h (by decide : ¬ ("expired" : String) = "pending"), h2,
    by simp⟩

/-- The pending-router scan rewrite preserves the invariant. -/
theorem C8Inv_scan (cu now : Nat) (x : QRInvitation) (_hx : C8Inv x) :
    C8Inv { x with scanned_by_user_id := some cu, status := "scanned",
                   scanned_at := some now } :=
  ⟨fun h => absurd h (by decide : ¬ ("scanned" : String) = "pending"), by simp,
   by simp⟩

/-- The dependent-router scan rewrite preserves the invariant. -/
theorem C8Inv_dscan (cu now : Nat) (x : QRInvitation) (_hx : C8Inv x) :
    C8Inv { x with scanned_by_user_id := some cu, status := "approved",
                   is_approved := true, scanned_at := some now,
                   approved_at := some now } :=
  ⟨fun h => absurd h (by decide : ¬ ("approved" : String) = "pending"), by simp,
   by simp⟩

/-- The pending-router approval rewrite preserves the invariant (the scan
fields are untouched). -/
theorem C8Inv_approve (now : Nat) (x : QRInvitation) (hx : C8Inv x) :
    C8Inv { x with is_approved := true, status := "approved",
                   approved_at := some now } := by
  obtain ⟨-, h2, -⟩ := hx
  exact ⟨fun h => absurd h (by decide : ¬ ("approved" : String) = "pending"), h2,
    by simp⟩

/-- The guardian-router approval rewrite preserves the invariant. -/
theorem C8Inv_gapprove (now : Nat) (x : QRInvitation) (hx : C8Inv x) :
    C8Inv { x with status := "approved", is_approved := true,
                   approved_at := some now } := by
  obtain ⟨-, h2, -⟩ := hx
  exact ⟨fun h => absurd h (by decide : ¬ ("approved" : String) = "pending"), h2,
    by simp⟩

/-- The pending-router reject rewrite preserves the invariant. -/
theorem C8Inv_reject (x : QRInvitation) (hx : C8Inv x) :
    C8Inv { x with status := "rejected", is_approved := false } := by
  obtain ⟨-, h2, -⟩ := hx
  exact ⟨fun h => absurd h (by decide : ¬ ("rejected" : String) = "pending"), h2,
    by simp⟩

/-- The guardian-router reject rewrite preserves the invariant. -/
theorem C8Inv_greject (x : QRInvitation) (hx : C8Inv x) :
    C8Inv { x with status := "rejected" } := by
  obtain ⟨-, h2, -⟩ := hx
  exact ⟨fun h => absurd h (by decide : ¬ ("rejected" : String) = "pending"), h2,
    by simp⟩

/-- A freshly minted invitation satisfies the invariant. -/
theorem C8Inv_fresh (i : Nat) (token : String) (cu pdid now exp : Nat) :
    C8Inv { id := i, qr_token := token, guardian_id := cu,
            pending_dependent_id := pdid, scanned_by_user_id := none,
            status := "pending", is_approved := false, created_at := now,
            scanned_at := none, expires_at := exp, approved_at := none } :=
  ⟨fun _ => rfl, by simp, Or.inl rfl⟩

/-- Pointwise-preserved row rewrites preserve the table invariant. -/
theorem C8_mapInv (db : DB) (j : Nat) (f : QRInvitation → QRInvitation)
    (hf : ∀ x, C8Inv x → C8Inv (f x)) (hinv : ∀ x ∈ db.invs, C8Inv x) :
    ∀ x ∈ (mapInvById db j f).invs, C8Inv x := by
  intro x hx
  unfold mapInvById at hx
  obtain ⟨y, hy, rfl⟩ := List.mem_map.mp hx
  by_cases hj : y.id = j
  · simpa [hj] using hf y (hinv y hy)
  · simpa [hj] using hinv y hy

/-- Appending an invariant-satisfying row preserves the table invariant. -/
theorem C8_append (l : List QRInvitation) (x0 : QRInvitation)
    (hinv : ∀ x ∈ l, C8Inv x) (h0 : C8Inv x0) :
    ∀ x ∈ l ++ [x0], C8Inv x := by
  intro x hx
  rcases List.mem_append.mp hx with h | h
  · exact hinv x h
  · rw [List.mem_singleton.mp h]
    exact h0

/-- Deleting rows preserves the table invariant. -/
theorem C8_filter (l : List QRInvitation) (p : QRInvitation → Bool)
    (hinv : ∀ x ∈ l, C8Inv x) : ∀ x ∈ l.filter p, C8Inv x :=
  fun x hx => hinv x (List.mem_of_mem_filter hx)

/-- Every request of the state machine preserves the redeemed-by
invariant across the whole invitation table. -/
theorem C8_step (db db2 : DB) (hs : Step db db2)
    (hinv : ∀ x ∈ db.invs, C8Inv x) : ∀ x ∈ db2.invs, C8Inv x := by
  cases hs with
  | createPD cu name rel age now =>
    intro x hx
    unfold create_pending_dependent at hx
    split at hx
    · exact hinv x hx
    · exact hinv x hx
  | pdGen cu pdid token now hfresh =>
    intro x hx
    unfold pd_generate_qr at hx
    split at hx
    · exact hinv x hx
    · split at hx
      · exact hinv x hx
      · split at hx
        · exact hinv x hx
        · exact C8_append db.invs _ hinv (C8Inv_fresh _ _ _ _ _ _) x hx
  | gGen cu pdid token now hfresh =>
    intro x hx
    unfold g_generate_qr at hx
    split at hx
    · exact hinv x hx
    · split at hx
      · exact hinv x hx
      · dsimp only at hx
        split at hx
        · split at hx
          · exact hinv x hx
          · exact C8_append db.invs _ hinv (C8Inv_fresh _ _ _ _ _ _) x hx
        · exact C8_append db.invs _ hinv (C8Inv_fresh _ _ _ _ _ _) x hx
  | pdScan cu token now =>
    intro x hx
    unfold pd_scan_qr at hx
    split at hx
    · exact hinv x hx
    · split at hx
      · exact hinv x hx
      · rename_i q2 hq2
        split at hx
        · exact C8_mapInv db q2.id _ C8Inv_expire hinv x hx
        · split at hx
          · exact hinv x hx
          · split at hx
            · exact hinv x hx
            · dsimp only at hx
              split at hx
              · exact C8_mapInv db q2.id _ (C8Inv_scan cu now) hinv x hx
              · split at hx
                · exact C8_mapInv db q2.id _ (C8Inv_scan cu now) hinv x hx
                · exact C8_mapInv db q2.id _ (C8Inv_scan cu now) hinv x hx
  | dScan cu token now =>
    intro x hx
    unfold d_scan_qr at hx
    split at hx
    · exact hinv x hx
    · split at hx
      · exact hinv x hx
      · rename_i q2 hq2
        split at hx
        · exact C8_mapInv db q2.id _ C8Inv_expire hinv x hx
        · split at hx
          · exact hinv x hx
          · split at hx
            · exact hinv x hx
            · split at hx
              · exact hinv x hx
              · split at hx
                · exact hinv x hx
                · dsimp only at hx
                  split at hx
                  · rw [addRoleIfMissing_invs] at hx
                    split at hx
                    · exact C8_mapInv db q2.id _ (C8Inv_dscan cu now) hinv x hx
                    · exact C8_mapInv db q2.id _ (C8Inv_dscan cu now) hinv x hx
                  · split at hx
                    · rw [addRoleIfMissing_invs] at hx
                      split at hx
                      · exact C8_mapInv db q2.id _ (C8Inv_dscan cu now)
                          hinv x hx
                      · exact C8_mapInv db q2.id _ (C8Inv_dscan cu now)
                          hinv x hx
                    · split at hx
                      · exact C8_mapInv db q2.id _ (C8Inv_dscan cu now)
                          hinv x hx
                      · exact C8_mapInv db q2.id _ (C8Inv_dscan cu now)
                          hinv x hx
  | pdApprove cu invId now =>
    intro x hx
    unfold pd_approve_qr at hx
    split at hx
    · exact hinv x hx
    · split at hx
      · exact hinv x hx
      · rename_i q2 hq2
        split at hx
        · exact hinv x hx
        · split at hx
          · exact hinv x hx
          · split at hx
            · exact hinv x hx
            · split at hx
              · exact hinv x hx
              · split at hx
                · exact hinv x hx
                · exact C8_mapInv db q2.id _ (C8Inv_approve now) hinv x hx
  | gApprove cu invId now =>
    intro x hx
    unfold g_approve_qr at hx
    split at hx
    · exact hinv x hx
    · split at hx
      · exact hinv x hx
      · rename_i q2 hq2
        split at hx
        · exact hinv x hx
        · split at hx
          · exact hinv x hx
          · split at hx
            · exact C8_mapInv db q2.id _ (C8Inv_gapprove now) hinv x hx
            · exact C8_mapInv db q2.id _ (C8Inv_gapprove now) hinv x hx
  | pdReject cu invId =>
    intro x hx
    unfold pd_reject_qr at hx
    split at hx
    · exact hinv x hx
    · split at hx
      · exact hinv x hx
      · rename_i q2 hq2
        split at hx
        · exact hinv x hx
        · exact C8_mapInv db q2.id _ C8Inv_reject hinv x hx
  | gReject cu invId =>
    intro x hx
    unfold g_reject_qr at hx
    split at hx
    · exact hinv x hx
    · split at hx
      · exact hinv x hx
      · rename_i q2 hq2
        exact C8_mapInv db q2.id _ C8Inv_greject hinv x hx
  | pdDelete cu pdid =>
    intro x hx
    unfold pd_delete_pending at hx
    split at hx
    · exact hinv x hx
    · split at hx
      · exact hinv x hx
      · split at hx
        · exact hinv x hx
        · exact C8_filter db.invs _ hinv x hx
  | gDelete cu pdid =>
    intro x hx
    unfold g_delete_pending at hx
    split at hx
    · exact hinv x hx
    · split at hx
      · exact hinv x hx
      · exact C8_filter db.invs _ hinv x hx

/-- C8: in every reachable state, for every invitation, `redeemed_by`
(`scanned_by_user_id`) is never set while the status is `pending`, and it
is set exactly when `scanned_at` is — the lifecycle timestamp written only
by a successful scan, together with `redeemed_by`, and never cleared — so
`redeemed_by` is non-null iff the invitation moved beyond `pending`
through a scan. -/
theorem C8_redeemed_iff_scanned (db : DB) (h : Reachable db) :
    ∀ x ∈ db.invs, C8Inv x := by
  obtain ⟨db0, hinit, hsteps⟩ := h
  induction hsteps with
  | refl =>
    intro x hx
    rw [hinit.2.1] at hx
    cases hx
  | tail hsteps hstep ih => exact C8_step _ _ hstep ih

/-- Witness for C8: the invariant read off the reachable state `c2db2`,
whose single invitation is freshly generated. -/
theorem C8_witness :
    C8Inv { id := 1, qr_token := "t1", guardian_id := 1,
            pending_dependent_id := 1, scanned_by_user_id := none,
            status := "pending", is_approved := false, created_at := 0,
            scanned_at := none, expires_at := 259200, approved_at := none } :=
  C8_redeemed_iff_scanned c2db2
    ⟨c2db0, ⟨rfl, rfl, rfl⟩,
     Relation.ReflTransGen.tail
       (Relation.ReflTransGen.single (Step.createPD c2db0 1 "A" "child" 9 0))
       (Step.pdGen c2db1 1 1 "t1" 0 (by decide))⟩
    _ (by decide)

end PSS
